import Mathlib

/-!
# School-year calendar utilities: verification

Shallow embedding of the calendar core of the curriculum-management app:

* `JSDate` — a model of the JavaScript `Date` / date-fns primitives the code
  uses (`new Date(y, m, d)`, `getDay`, `getMonth`, `getYear`, `addDays`).
  A date is represented by its day number (days since 1970-01-01, proleptic
  Gregorian calendar, via the standard civil-from-days / days-from-civil
  conversion).  JavaScript month overflow (`new Date(y, 12, d)` is January
  of `y+1`) is modelled by normalising the 0-based month with floor
  division.
* `DateHelpers` — transcription of `src/utils/dateHelpers.ts`.
* `ExportService` — transcription of the weekday-counting duplicate of
  `getMonthFromWeek` in `src/services/exportService.ts`.
* `MonthView` — the drag-and-drop week-reassignment arithmetic of the
  month-view component.
-/

set_option maxRecDepth 100000

namespace JSDate

/-- Day number of a Gregorian civil date (days since 1970-01-01), the
standard days-from-civil conversion.  `m` is 1-based (1 = January); callers
pass `m ∈ [1,12]`.  Day `d` may be any integer (day overflow is linear,
matching JavaScript). -/
def daysFromCivil (y m d : Int) : Int :=
  let yAdj : Int := if m ≤ 2 then y - 1 else y
  let era : Int := yAdj / 400
  let yoe : Nat := (yAdj - era * 400).toNat
  let mp : Nat := (if m ≤ 2 then m + 9 else m - 3).toNat
  let doy : Nat := (153 * mp + 2) / 5
  era * 146097 + ((yoe : Int) * 365 + (yoe / 4 : Nat) - (yoe / 100 : Nat) + (doy : Int) + (d - 1)) - 719468

/-- Civil date from a day number, the standard civil-from-days conversion:
returns `(year, month0, day)` with `month0` 0-based (0 = January), valid for
every integer day number. -/
def civilOfDays (z : Int) : Int × Nat × Nat :=
  let era : Int := (z + 719468) / 146097
  let doe : Nat := (z + 719468 - era * 146097).toNat
  let yoe : Nat := (doe - doe / 1460 + doe / 36524 - doe / 146096) / 365
  let y : Int := (yoe : Int) + era * 400
  let doy : Nat := doe - (365 * yoe + yoe / 4 - yoe / 100)
  let mp : Nat := (5 * doy + 2) / 153
  let d : Nat := doy - (153 * mp + 2) / 5 + 1
  let m : Nat := if mp < 10 then mp + 3 else mp - 9
  (if m ≤ 2 then y + 1 else y, m - 1, d)

/-- JavaScript `date.getMonth()`: 0-based month of a day number. -/
def getMonth (z : Int) : Int := ((civilOfDays z).2.1 : Int)

/-- JavaScript `date.getFullYear()` / date-fns `getYear`. -/
def getYear (z : Int) : Int := (civilOfDays z).1

/-- JavaScript `date.getDay()`: 0 = Sunday … 6 = Saturday.
Day 0 (1970-01-01) was a Thursday, hence the offset 4. -/
def getDay (z : Int) : Int := (z + 4) % 7

/-- JavaScript `new Date(year, month, day)` with 0-based `month`, as a day
number.  Month overflow wraps into adjacent years exactly as in JavaScript. -/
def mkDateDays (year month day : Int) : Int :=
  daysFromCivil (year + month / 12) (month % 12 + 1) day

/-- date-fns `addDays` on day numbers. -/
def addDays (z n : Int) : Int := z + n

end JSDate

namespace DateHelpers

open JSDate

/-- `getFirstMondayOfApril` from `src/utils/dateHelpers.ts`: first Monday of
April of `year` (start of the school year), as a day number. -/
def getFirstMondayOfApril (year : Int) : Int :=
  let aprilStart := mkDateDays year 3 1
  let dayOfWeek := getDay aprilStart
  let daysToAdd := if dayOfWeek = 0 then 1 else (8 - dayOfWeek) % 7
  addDays aprilStart daysToAdd

/-- `getMonthFromWeek` from `src/utils/dateHelpers.ts` (calendar-week
variant): month index (0–11) of school-year week `weekNumber`.  Advances
`(weekNumber-1)` seven-day weeks from the first Monday of April, plus 4 days
to the middle of the week. -/
def getMonthFromWeek (weekNumber year : Int) : Int :=
  let firstMonday := getFirstMondayOfApril year
  let daysIntoYear := (weekNumber - 1) * 7
  let middleOfWeek := daysIntoYear + 4
  let targetDate := addDays firstMonday middleOfWeek
  let monthIndex := getMonth targetDate
  let monthYear := getYear targetDate
  if monthYear > year ∧ monthIndex < 3 then monthIndex else monthIndex

/-- `getWeekForMonth` from `src/utils/dateHelpers.ts`: representative week
for a month, from the 15th of the month (in calendar year `year`), by
floor-dividing the day offset from the school-year start by 7, then clamping
to [1, 52]. -/
def getWeekForMonth (monthIndex year : Int) : Int :=
  let monthDate := mkDateDays year monthIndex 15
  let firstMonday := getFirstMondayOfApril year
  let daysDiff := monthDate - firstMonday
  let weekNumber := daysDiff / 7 + 1
  max 1 (min 52 weekNumber)

/-- A month descriptor as produced by `getSchoolYearMonths`. -/
structure SchoolYearMonth where
  name : String
  abbr : String
  monthIndex : Int
  year : Int
deriving DecidableEq, Repr, Inhabited

/-- Full month names, as date-fns `format(…, "MMMM")` produces them. -/
def monthFullNames : List String :=
  ["January", "February", "March", "April", "May", "June",
   "July", "August", "September", "October", "November", "December"]

/-- Month abbreviations, as date-fns `format(…, "MMM")` produces them. -/
def monthAbbrNames : List String :=
  ["Jan", "Feb", "Mar", "Apr", "May", "Jun",
   "Jul", "Aug", "Sep", "Oct", "Nov", "Dec"]

/-- `getSchoolYearMonths` from `src/utils/dateHelpers.ts`: the 12 months of
the school year starting in April of `year`, in order April … March. -/
def getSchoolYearMonths (year : Int) : List SchoolYearMonth :=
  (List.range 12).map (fun i =>
    let monthIndex : Nat := (3 + i) % 12
    let monthYear : Int := if monthIndex < 3 then year + 1 else year
    { name := monthFullNames.getD monthIndex ""
      abbr := monthAbbrNames.getD monthIndex ""
      monthIndex := (monthIndex : Int)
      year := monthYear })

/-- The ascending scan of `getFirstWeekForMonth`: examines weeks `w`,
`w + 1`, … for `fuel` iterations (the source's for-loop over weeks 1–52),
falling back to `getWeekForMonth` once the weeks are exhausted. -/
def firstWeekScan (monthIndex year : Int) : Nat → Nat → Int
  | 0, _ => getWeekForMonth monthIndex year
  | fuel + 1, w =>
    if getMonthFromWeek (w : Int) year = monthIndex then (w : Int)
    else firstWeekScan monthIndex year fuel (w + 1)

/-- `getFirstWeekForMonth` from `src/utils/dateHelpers.ts`: first week in
[1, 52] mapping to `monthIndex`, else the `getWeekForMonth` fallback. -/
def getFirstWeekForMonth (monthIndex year : Int) : Int :=
  firstWeekScan monthIndex year 52 1

/-- The descending scan of `getLastWeekForMonth`, from week `w` down to 1. -/
def lastWeekScan (monthIndex year : Int) : Nat → Int
  | 0 => getWeekForMonth monthIndex year
  | w + 1 =>
    if getMonthFromWeek ((w + 1 : Nat) : Int) year = monthIndex then ((w + 1 : Nat) : Int)
    else lastWeekScan monthIndex year w

/-- `getLastWeekForMonth` from `src/utils/dateHelpers.ts`: last week in
[1, 52] mapping to `monthIndex`, else the `getWeekForMonth` fallback. -/
def getLastWeekForMonth (monthIndex year : Int) : Int :=
  lastWeekScan monthIndex year 52

/-- Modelled from the spec (the reading asserted by claim C4 of §4.4): the
representative week is the school-year week containing the 15th of the month
*as positioned within school year `year`*, i.e. for January–March the 15th
is taken in calendar year `year + 1`.  Kept only to compare against the
implementation `getWeekForMonth`, which always uses calendar year `year`. -/
def getWeekForMonthSpec (monthIndex year : Int) : Int :=
  let calYear := if monthIndex < 3 then year + 1 else year
  let monthDate := JSDate.mkDateDays calYear monthIndex 15
  let firstMonday := getFirstMondayOfApril year
  let daysDiff := monthDate - firstMonday
  let weekNumber := daysDiff / 7 + 1
  max 1 (min 52 weekNumber)

/-- The school-year position of a calendar month index, as the spec reads
results: April = 0, May = 1, …, December = 8, January = 9, …, March = 11. -/
def schoolYearPos (monthIndex : Int) : Int :=
  (monthIndex + 9) % 12

/-- The unclamped school-year week index of a day number: week 1 starts on
the first Monday of April, each week is 7 days. -/
def weekIndexOfDay (z year : Int) : Int :=
  (z - getFirstMondayOfApril year) / 7 + 1

end DateHelpers

namespace ExportService

open JSDate

/-- `getFirstMondayOfApril` from `src/services/exportService.ts` (verbatim
duplicate of the `dateHelpers.ts` one). -/
def getFirstMondayOfApril (year : Int) : Int :=
  DateHelpers.getFirstMondayOfApril year

/-- One pass of the weekday-counting loop of the export service's
`getMonthFromWeek`: the next weekday (Mon–Fri) strictly after day `z`.
The loop walks day by day and counts only days whose `getDay` is in 1..5,
so it lands on the next day if that is a weekday, and otherwise skips the
weekend (Saturday → following Monday is +3, Sunday → +2). -/
def nextWeekday (z : Int) : Int :=
  let d := getDay (z + 1)
  if 1 ≤ d ∧ d ≤ 5 then z + 1
  else if d = 6 then z + 3
  else z + 2

/-- `n` iterations of the weekday-counting loop: the `n`-th weekday strictly
after day `z`. -/
def addWeekdays (z : Int) : Nat → Int
  | 0 => z
  | n + 1 => addWeekdays (nextWeekday z) n

/-- `getMonthFromWeek` from `src/services/exportService.ts` (weekday-only
variant): advances `(weekNumber-1)*5 + 3` weekdays (Mon–Fri) from the first
Monday of April and reads off the month.  The while loop runs
`middleOfWeek` times when that count is positive and not at all otherwise
(`toNat` clamps at 0). -/
def getMonthFromWeek (weekNumber year : Int) : Int :=
  let firstMonday := getFirstMondayOfApril year
  let weekdaysIntoYear := (weekNumber - 1) * 5
  let middleOfWeek := weekdaysIntoYear + 3
  let currentDate := addWeekdays firstMonday middleOfWeek.toNat
  let monthIndex := getMonth currentDate
  let monthYear := getYear currentDate
  if monthYear > year ∧ monthIndex < 3 then monthIndex else monthIndex

end ExportService

namespace MonthView

open DateHelpers

/-- The drop-position state of the month view: index of the item the cursor
is over, and whether the drop is above (`true`) or below it. -/
structure DropPosition where
  index : Nat
  above : Bool
deriving DecidableEq, Repr

/-- The week chosen by the month-view cell `onDrop` handler, as a function
of the ordered week numbers of the items already in the month cell and the
drop position.  Mirrors the branching of the handler: empty cell or no drop
position → `getWeekForMonth`; otherwise the above/below, first/last/middle
arithmetic followed by the clamp to [1, 52]. -/
def cellDropWeek (monthIndex year : Int) (weeks : List Int)
    (dropPosition : Option DropPosition) : Int :=
  if weeks.length = 0 then getWeekForMonth monthIndex year
  else
    match dropPosition with
    | some dp =>
      let targetWeek := weeks.getD dp.index 0
      let newWeek :=
        if dp.above then
          let firstWeek := getFirstWeekForMonth monthIndex year
          if dp.index = 0 then
            max firstWeek (targetWeek - 1)
          else
            let prevWeek := weeks.getD (dp.index - 1) 0
            let midWeek := (prevWeek + targetWeek) / 2
            if midWeek > prevWeek ∧ midWeek < targetWeek then midWeek
            else max (prevWeek + 1) (targetWeek - 1)
        else
          let lastWeek := getLastWeekForMonth monthIndex year
          if dp.index = weeks.length - 1 then
            min lastWeek (targetWeek + 1)
          else
            let nextWeek := weeks.getD (dp.index + 1) 0
            let midWeek := (targetWeek + nextWeek) / 2
            if midWeek > targetWeek ∧ midWeek < nextWeek then midWeek
            else min (targetWeek + 1) (nextWeek - 1)
      max 1 (min 52 newWeek)
    | none => getWeekForMonth monthIndex year

/-- The week chosen by the month-view drop-zone-above-item `onDrop` handler
(the thin drop strip rendered above each item): first-item or middle-item
arithmetic, followed by the clamp to [1, 52]. -/
def zoneDropWeekAbove (monthIndex year : Int) (weeks : List Int)
    (index : Nat) : Int :=
  let itemWeek := weeks.getD index 0
  let firstWeek := getFirstWeekForMonth monthIndex year
  let newWeek :=
    if index = 0 then
      max firstWeek (itemWeek - 1)
    else
      let prevWeek := weeks.getD (index - 1) 0
      let midWeek := (prevWeek + itemWeek) / 2
      if midWeek > prevWeek ∧ midWeek < itemWeek then midWeek
      else max (prevWeek + 1) (itemWeek - 1)
  max 1 (min 52 newWeek)

end MonthView

/-! ## Arithmetic lemmas

The Gregorian calendar repeats exactly every 400 years (146097 days, a
multiple of 7), which lets claims quantified over every school year be
reduced to the 400 residues of the year modulo 400.
-/

namespace JSDate

theorem daysFromCivil_add_400 (y m d : Int) :
    daysFromCivil (y + 400) m d = daysFromCivil y m d + 146097 := by
  simp only [daysFromCivil]
  have hAdj : (if m ≤ 2 then y + 400 - 1 else y + 400)
      = (if m ≤ 2 then y - 1 else y) + 400 := by
    split <;> ring
  rw [hAdj]
  generalize (if m ≤ 2 then y - 1 else y) = a
  have hdiv : (a + 400) / 400 = a / 400 + 1 := by
    have h := Int.add_mul_ediv_right a 1 (by norm_num : (400 : Int) ≠ 0)
    simpa using h
  rw [hdiv]
  have hsub : a + 400 - (a / 400 + 1) * 400 = a - a / 400 * 400 := by ring
  rw [hsub]
  ring

theorem getMonth_add_146097 (z : Int) : getMonth (z + 146097) = getMonth z := by
  simp only [getMonth, civilOfDays]
  have e1 : z + 146097 + 719468 - (z + 146097 + 719468) / 146097 * 146097
      = z + 719468 - (z + 719468) / 146097 * 146097 := by
    have a1 : z + 146097 + 719468 - (z + 146097 + 719468) / 146097 * 146097
        = (z + 146097 + 719468) % 146097 := by rw [Int.emod_def]; ring
    have a2 : z + 719468 - (z + 719468) / 146097 * 146097 = (z + 719468) % 146097 := by
      rw [Int.emod_def]; ring
    have a3 : z + 146097 + 719468 = z + 719468 + 146097 * 1 := by ring
    rw [a1, a2, a3, Int.add_mul_emod_self_left]
  rw [e1]

theorem getDay_add_146097 (z : Int) : getDay (z + 146097) = getDay z := by
  simp only [getDay]
  have e : z + 146097 + 4 = z + 4 + 7 * 20871 := by ring
  rw [e, Int.add_mul_emod_self_left]

theorem mkDateDays_add_400 (y m d : Int) :
    mkDateDays (y + 400) m d = mkDateDays y m d + 146097 := by
  simp only [mkDateDays]
  have e : y + 400 + m / 12 = y + m / 12 + 400 := by ring
  rw [e, daysFromCivil_add_400]

end JSDate

namespace DateHelpers

theorem getFirstMondayOfApril_add_400 (y : Int) :
    getFirstMondayOfApril (y + 400) = getFirstMondayOfApril y + 146097 := by
  simp only [getFirstMondayOfApril, JSDate.addDays, JSDate.mkDateDays_add_400,
    JSDate.getDay_add_146097]
  ring

theorem getMonthFromWeek_eq (w y : Int) :
    getMonthFromWeek w y
      = JSDate.getMonth (getFirstMondayOfApril y + ((w - 1) * 7 + 4)) := by
  simp only [getMonthFromWeek, JSDate.addDays, ite_self]

theorem getMonthFromWeek_add_400 (w y : Int) :
    getMonthFromWeek w (y + 400) = getMonthFromWeek w y := by
  rw [getMonthFromWeek_eq, getMonthFromWeek_eq, getFirstMondayOfApril_add_400]
  have e : getFirstMondayOfApril y + 146097 + ((w - 1) * 7 + 4)
      = getFirstMondayOfApril y + ((w - 1) * 7 + 4) + 146097 := by ring
  rw [e, JSDate.getMonth_add_146097]

theorem getWeekForMonth_add_400 (m y : Int) :
    getWeekForMonth m (y + 400) = getWeekForMonth m y := by
  simp only [getWeekForMonth, JSDate.mkDateDays_add_400, getFirstMondayOfApril_add_400]
  have e : JSDate.mkDateDays y m 15 + 146097 - (getFirstMondayOfApril y + 146097)
      = JSDate.mkDateDays y m 15 - getFirstMondayOfApril y := by ring
  rw [e]

end DateHelpers

/-- Any function on years invariant under a 400-year shift is determined by
the year's residue modulo 400. -/
theorem periodic400_eval {α : Type} (g : Int → α) (hg : ∀ y, g (y + 400) = g y)
    (y : Int) : g y = g (y % 400) := by
  have hsub : ∀ z : Int, g (z - 400) = g z := by
    intro z
    have h := hg (z - 400)
    simpa using h.symm
  have key : ∀ (r : Int) (q : Int), g (400 * q + r) = g r := by
    intro r q
    induction q using Int.induction_on with
    | hz => norm_num
    | hp i ih =>
      have e : (400 : Int) * (i + 1) + r = 400 * i + r + 400 := by ring
      rw [e, hg, ih]
    | hn i ih =>
      have e : (400 : Int) * (-i - 1) + r = 400 * (-i) + r - 400 := by ring
      rw [e, hsub, ih]
  conv_lhs => rw [← Int.ediv_add_emod y 400]
  exact key (y % 400) (y / 400)

namespace JSDate

/-- The 0-based month produced by `civilOfDays` is at most 11, for every
integer day number. -/
theorem civilOfDays_month_le (z : Int) : (civilOfDays z).2.1 ≤ 11 := by
  simp only [civilOfDays]
  have h1 := Int.emod_nonneg (z + 719468) (by norm_num : (146097 : Int) ≠ 0)
  have h2 := Int.emod_lt_of_pos (z + 719468) (by norm_num : (0 : Int) < 146097)
  have h3 : z + 719468 - (z + 719468) / 146097 * 146097 = (z + 719468) % 146097 := by
    rw [Int.emod_def]; ring
  rw [h3]
  split <;> omega

end JSDate

/-! ## Lemmas about the inverse-lookup scans and the clamps -/

namespace DateHelpers

theorem getWeekForMonth_bounds (m y : Int) :
    1 ≤ getWeekForMonth m y ∧ getWeekForMonth m y ≤ 52 := by
  simp only [getWeekForMonth]
  omega

theorem firstWeekScan_found (m y : Int) :
    ∀ (fuel w0 : Nat),
      (∃ w : Nat, w0 ≤ w ∧ w < w0 + fuel ∧ getMonthFromWeek (w : Int) y = m) →
    ∃ v : Nat, firstWeekScan m y fuel w0 = (v : Int) ∧ w0 ≤ v ∧ v < w0 + fuel ∧
      getMonthFromWeek (v : Int) y = m ∧
      ∀ w : Nat, w0 ≤ w → w < w0 + fuel → getMonthFromWeek (w : Int) y = m → v ≤ w := by
  intro fuel
  induction fuel with
  | zero =>
    rintro w0 ⟨w, hw0, hwf, _⟩
    omega
  | succ n ih =>
    intro w0 hex
    rw [firstWeekScan]
    by_cases hm : getMonthFromWeek (w0 : Int) y = m
    · rw [if_pos hm]
      exact ⟨w0, rfl, Nat.le_refl _, by omega, hm, fun w hw _ _ => hw⟩
    · rw [if_neg hm]
      obtain ⟨w, hw0, hwf, hwm⟩ := hex
      have hne : w ≠ w0 := by
        intro he
        rw [he] at hwm
        exact hm hwm
      obtain ⟨v, hveq, hvlo, hvhi, hvm, hvmin⟩ :=
        ih (w0 + 1) ⟨w, by omega, by omega, hwm⟩
      refine ⟨v, hveq, by omega, by omega, hvm, fun w' hw' hwf' hm' => ?_⟩
      have hne' : w' ≠ w0 := by
        intro he
        rw [he] at hm'
        exact hm hm'
      exact hvmin w' (by omega) (by omega) hm'

theorem firstWeekScan_none (m y : Int) :
    ∀ (fuel w0 : Nat),
      (∀ w : Nat, w0 ≤ w → w < w0 + fuel → getMonthFromWeek (w : Int) y ≠ m) →
    firstWeekScan m y fuel w0 = getWeekForMonth m y := by
  intro fuel
  induction fuel with
  | zero =>
    intro w0 _
    rw [firstWeekScan]
  | succ n ih =>
    intro w0 hnone
    rw [firstWeekScan, if_neg (hnone w0 (Nat.le_refl _) (by omega))]
    exact ih (w0 + 1) (fun w hw1 hw2 => hnone w (by omega) (by omega))

theorem lastWeekScan_found (m y : Int) :
    ∀ w0 : Nat, (∃ w : Nat, 1 ≤ w ∧ w ≤ w0 ∧ getMonthFromWeek (w : Int) y = m) →
    ∃ v : Nat, lastWeekScan m y w0 = (v : Int) ∧ 1 ≤ v ∧ v ≤ w0 ∧
      getMonthFromWeek (v : Int) y = m ∧
      ∀ w : Nat, 1 ≤ w → w ≤ w0 → getMonthFromWeek (w : Int) y = m → w ≤ v := by
  intro w0
  induction w0 with
  | zero =>
    rintro ⟨w, h1, h2, _⟩
    omega
  | succ n ih =>
    rintro ⟨w, h1, h2, hm⟩
    rw [lastWeekScan]
    by_cases htop : getMonthFromWeek ((n + 1 : Nat) : Int) y = m
    · rw [if_pos htop]
      exact ⟨n + 1, rfl, by omega, Nat.le_refl _, htop, fun w' _ hw' _ => hw'⟩
    · rw [if_neg htop]
      have hwn : w ≤ n := by
        by_cases he : w = n + 1
        · rw [he] at hm
          exact absurd hm htop
        · omega
      obtain ⟨v, hveq, hvlo, hvhi, hvm, hvmax⟩ := ih ⟨w, h1, hwn, hm⟩
      refine ⟨v, hveq, hvlo, by omega, hvm, fun w' h1' h2' hm' => ?_⟩
      by_cases he : w' = n + 1
      · rw [he] at hm'
        exact absurd hm' htop
      · exact hvmax w' h1' (by omega) hm'

theorem lastWeekScan_none (m y : Int) :
    ∀ w0 : Nat, (∀ w : Nat, 1 ≤ w → w ≤ w0 → getMonthFromWeek (w : Int) y ≠ m) →
    lastWeekScan m y w0 = getWeekForMonth m y := by
  intro w0
  induction w0 with
  | zero => intro _; rw [lastWeekScan]
  | succ n ih =>
    intro hnone
    rw [lastWeekScan, if_neg (hnone (n + 1) (by omega) (Nat.le_refl _))]
    exact ih (fun w h1 h2 => hnone w h1 (by omega))

end DateHelpers

namespace MonthView

theorem cellDropWeek_bounds (monthIndex year : Int) (weeks : List Int)
    (dropPosition : Option DropPosition) :
    1 ≤ cellDropWeek monthIndex year weeks dropPosition ∧
      cellDropWeek monthIndex year weeks dropPosition ≤ 52 := by
  unfold cellDropWeek
  split
  · exact DateHelpers.getWeekForMonth_bounds monthIndex year
  · rcases dropPosition with _ | dp
    · exact DateHelpers.getWeekForMonth_bounds monthIndex year
    · simp only []
      omega

theorem zoneDropWeekAbove_bounds (monthIndex year : Int) (weeks : List Int)
    (index : Nat) :
    1 ≤ zoneDropWeekAbove monthIndex year weeks index ∧
      zoneDropWeekAbove monthIndex year weeks index ≤ 52 := by
  simp only [zoneDropWeekAbove]
  omega

end MonthView

/-! ## Claims -/

/-- C1: the two week-to-month implementations disagree: for week 17 of
school year 2025 the calendar-week variant (`dateHelpers.ts`, mid-week day
Friday August 1, 2025) returns 7, while the weekday-only variant
(`exportService.ts`, mid-week day Thursday July 31, 2025) returns 6. -/
theorem getMonthFromWeek_variants_disagree :
    ∃ w : Int, 1 ≤ w ∧ w ≤ 52 ∧ ∃ y : Int,
      DateHelpers.getMonthFromWeek w y ≠ ExportService.getMonthFromWeek w y := by
  refine ⟨17, by norm_num, by norm_num, 2025, ?_⟩
  decide

/-- C2: contrary to the claim (and to the function's own doc comment,
"Week 52 = March of next year"), `getMonthFromWeek(52, 2025)` evaluates to 3
(April): the first Monday of April 2025 is April 7, and 361 days later is
April 3, 2026. -/
theorem getMonthFromWeek_52_2025_eq_three :
    DateHelpers.getMonthFromWeek 52 2025 = 3 ∧ DateHelpers.getMonthFromWeek 52 2025 ≠ 2 := by
  decide

/-- C3: the week-to-month mapping is not monotone in school-year positions
for year 2025: week 51 maps to March (position 11) but week 52 maps to
April of the following calendar year (position 0). -/
theorem schoolYearPos_week51_week52_2025 :
    DateHelpers.schoolYearPos (DateHelpers.getMonthFromWeek 51 2025) = 11 ∧
    DateHelpers.schoolYearPos (DateHelpers.getMonthFromWeek 52 2025) = 0 := by
  decide

/-- C4 counterexample: for January (month 0) of school year 2025 the
implementation returns week 1 (the 15th is taken in January 2025, before
the school-year start, and the negative offset clamps to 1), not the week
of January 15, 2026 (week 41) that the claim's reading of the spec
requires. -/
theorem getWeekForMonth_jan_2025_ne_spec :
    DateHelpers.getWeekForMonth 0 2025 = 1 ∧
    DateHelpers.getWeekForMonthSpec 0 2025 = 41 ∧
    DateHelpers.getWeekForMonth 0 2025 ≠ DateHelpers.getWeekForMonthSpec 0 2025 := by
  decide

/-- C4 (amended): `getWeekForMonth(m, Y)` returns the week index of the
school-year week containing the 15th of month `m` of calendar year `Y`
itself (also for January–March), clamped to [1, 52]: the unclamped index
`u = weekIndexOfDay` satisfies the week-containment bracketing
`firstMonday + 7(u-1) ≤ day15 < firstMonday + 7u`, and the result is
`max 1 (min 52 u)`. -/
theorem getWeekForMonth_characterization (monthIndex year : Int)
    (_h0 : 0 ≤ monthIndex) (_h11 : monthIndex ≤ 11) :
    DateHelpers.getWeekForMonth monthIndex year
      = max 1 (min 52 (DateHelpers.weekIndexOfDay (JSDate.mkDateDays year monthIndex 15) year)) ∧
    DateHelpers.getFirstMondayOfApril year
        + 7 * (DateHelpers.weekIndexOfDay (JSDate.mkDateDays year monthIndex 15) year - 1)
      ≤ JSDate.mkDateDays year monthIndex 15 ∧
    JSDate.mkDateDays year monthIndex 15
      < DateHelpers.getFirstMondayOfApril year
        + 7 * DateHelpers.weekIndexOfDay (JSDate.mkDateDays year monthIndex 15) year := by
  refine ⟨rfl, ?_, ?_⟩ <;>
    · simp only [DateHelpers.weekIndexOfDay]
      omega

/-- C4 witness: the characterization applied to June (month 5) of school
year 2025. -/
theorem getWeekForMonth_characterization_witness :
    DateHelpers.getWeekForMonth 5 2025
      = max 1 (min 52 (DateHelpers.weekIndexOfDay (JSDate.mkDateDays 2025 5 15) 2025)) ∧
    DateHelpers.getFirstMondayOfApril 2025
        + 7 * (DateHelpers.weekIndexOfDay (JSDate.mkDateDays 2025 5 15) 2025 - 1)
      ≤ JSDate.mkDateDays 2025 5 15 ∧
    JSDate.mkDateDays 2025 5 15
      < DateHelpers.getFirstMondayOfApril 2025
        + 7 * DateHelpers.weekIndexOfDay (JSDate.mkDateDays 2025 5 15) 2025 :=
  getWeekForMonth_characterization 5 2025 (by norm_num) (by norm_num)

/-- C5: `getSchoolYearMonths(Y)` has exactly 12 entries in fixed order:
entry `i` has monthIndex `(3+i) % 12`; entry 0 is April with year `Y`,
entry 11 is March with year `Y+1`; each entry's year is `Y+1` exactly when
its monthIndex is below 3, and `Y` otherwise. -/
theorem getSchoolYearMonths_structure (year : Int) :
    (DateHelpers.getSchoolYearMonths year).length = 12 ∧
    (∀ i : Nat, i < 12 →
      ((DateHelpers.getSchoolYearMonths year).getD i default).monthIndex
          = (((3 + i) % 12 : Nat) : Int) ∧
      ((DateHelpers.getSchoolYearMonths year).getD i default).year
          = (if ((3 + i) % 12 : Nat) < 3 then year + 1 else year) ∧
      (((DateHelpers.getSchoolYearMonths year).getD i default).monthIndex < 3 →
        ((DateHelpers.getSchoolYearMonths year).getD i default).year = year + 1) ∧
      (3 ≤ ((DateHelpers.getSchoolYearMonths year).getD i default).monthIndex →
        ((DateHelpers.getSchoolYearMonths year).getD i default).year = year)) ∧
    (DateHelpers.getSchoolYearMonths year).getD 0 default
        = ⟨"April", "Apr", 3, year⟩ ∧
    (DateHelpers.getSchoolYearMonths year).getD 11 default
        = ⟨"March", "Mar", 2, year + 1⟩ := by
  have hlist : DateHelpers.getSchoolYearMonths year =
      [⟨"April", "Apr", 3, year⟩, ⟨"May", "May", 4, year⟩, ⟨"June", "Jun", 5, year⟩,
       ⟨"July", "Jul", 6, year⟩, ⟨"August", "Aug", 7, year⟩, ⟨"September", "Sep", 8, year⟩,
       ⟨"October", "Oct", 9, year⟩, ⟨"November", "Nov", 10, year⟩,
       ⟨"December", "Dec", 11, year⟩, ⟨"January", "Jan", 0, year + 1⟩,
       ⟨"February", "Feb", 1, year + 1⟩, ⟨"March", "Mar", 2, year + 1⟩] := rfl
  refine ⟨by rw [hlist]; rfl, ?_, by rw [hlist]; rfl, by rw [hlist]; rfl⟩
  intro i hi
  rw [hlist]
  interval_cases i <;>
    refine ⟨rfl, rfl, fun h => ?_, fun h => ?_⟩ <;>
      first | rfl | exact absurd h (of_decide_eq_false rfl)

/-- C5 witness: the structure facts applied to school year 2025, read off
at index 11. -/
theorem getSchoolYearMonths_structure_witness :
    (DateHelpers.getSchoolYearMonths 2025).getD 11 default
      = ⟨"March", "Mar", 2, 2025 + 1⟩ :=
  (getSchoolYearMonths_structure 2025).2.2.2

/-- C6: whenever some week in [1,52] maps to month `monthIndex`,
`getFirstWeekForMonth` returns the smallest such week, `getLastWeekForMonth`
returns the largest, and the first is at most the last. -/
theorem firstLastWeekForMonth_extremal (monthIndex year : Int) (w : Nat)
    (h1 : 1 ≤ w) (h52 : w ≤ 52)
    (hm : DateHelpers.getMonthFromWeek (w : Int) year = monthIndex) :
    (∃ vf : Nat, DateHelpers.getFirstWeekForMonth monthIndex year = (vf : Int) ∧
      1 ≤ vf ∧ vf ≤ 52 ∧ DateHelpers.getMonthFromWeek (vf : Int) year = monthIndex ∧
      ∀ w' : Nat, 1 ≤ w' → w' ≤ 52 →
        DateHelpers.getMonthFromWeek (w' : Int) year = monthIndex → vf ≤ w') ∧
    (∃ vl : Nat, DateHelpers.getLastWeekForMonth monthIndex year = (vl : Int) ∧
      1 ≤ vl ∧ vl ≤ 52 ∧ DateHelpers.getMonthFromWeek (vl : Int) year = monthIndex ∧
      ∀ w' : Nat, 1 ≤ w' → w' ≤ 52 →
        DateHelpers.getMonthFromWeek (w' : Int) year = monthIndex → w' ≤ vl) ∧
    DateHelpers.getFirstWeekForMonth monthIndex year
      ≤ DateHelpers.getLastWeekForMonth monthIndex year := by
  obtain ⟨vf, hfeq, hflo, hfhi, hfm, hfmin⟩ :=
    DateHelpers.firstWeekScan_found monthIndex year 52 1 ⟨w, h1, by omega, hm⟩
  obtain ⟨vl, hleq, hllo, hlhi, hlm, hlmax⟩ :=
    DateHelpers.lastWeekScan_found monthIndex year 52 ⟨w, h1, h52, hm⟩
  have hfirst : DateHelpers.getFirstWeekForMonth monthIndex year = (vf : Int) := hfeq
  have hlast : DateHelpers.getLastWeekForMonth monthIndex year = (vl : Int) := hleq
  have hle : vf ≤ vl := hfmin vl hllo (by omega) hlm
  refine ⟨⟨vf, hfirst, hflo, by omega, hfm, fun w' a b c => hfmin w' a (by omega) c⟩,
    ⟨vl, hlast, hllo, hlhi, hlm, hlmax⟩, ?_⟩
  rw [hfirst, hlast]
  exact_mod_cast hle

/-- C6 witness: May (month 4) of school year 2025, anchored at week 6. -/
theorem firstLastWeekForMonth_extremal_witness :
    DateHelpers.getFirstWeekForMonth 4 2025 ≤ DateHelpers.getLastWeekForMonth 4 2025 :=
  (firstLastWeekForMonth_extremal 4 2025 6 (by norm_num) (by norm_num) (by decide)).2.2

/-- C7: dropping above a middle item computes the floor midpoint of the
previous and target weeks when it lies strictly between them, otherwise
`max (prev+1) (target-1)`, and every drop branch of both handlers yields a
week clamped into [1, 52]. -/
theorem dropWeek_middle_above_formula (monthIndex year : Int) (weeks : List Int)
    (i : Nat) (h0 : 0 < i) (hi : i < weeks.length) :
    (MonthView.cellDropWeek monthIndex year weeks (some ⟨i, true⟩) =
      max 1 (min 52
        (if (weeks.getD (i - 1) 0 + weeks.getD i 0) / 2 > weeks.getD (i - 1) 0 ∧
            (weeks.getD (i - 1) 0 + weeks.getD i 0) / 2 < weeks.getD i 0
         then (weeks.getD (i - 1) 0 + weeks.getD i 0) / 2
         else max (weeks.getD (i - 1) 0 + 1) (weeks.getD i 0 - 1)))) ∧
    (MonthView.zoneDropWeekAbove monthIndex year weeks i =
      max 1 (min 52
        (if (weeks.getD (i - 1) 0 + weeks.getD i 0) / 2 > weeks.getD (i - 1) 0 ∧
            (weeks.getD (i - 1) 0 + weeks.getD i 0) / 2 < weeks.getD i 0
         then (weeks.getD (i - 1) 0 + weeks.getD i 0) / 2
         else max (weeks.getD (i - 1) 0 + 1) (weeks.getD i 0 - 1)))) ∧
    (∀ dp : Option MonthView.DropPosition,
      1 ≤ MonthView.cellDropWeek monthIndex year weeks dp ∧
        MonthView.cellDropWeek monthIndex year weeks dp ≤ 52) ∧
    (∀ j : Nat, 1 ≤ MonthView.zoneDropWeekAbove monthIndex year weeks j ∧
        MonthView.zoneDropWeekAbove monthIndex year weeks j ≤ 52) := by
  have hlen : ¬ weeks.length = 0 := by omega
  have hne : ¬ i = 0 := by omega
  refine ⟨?_, ?_, fun dp => MonthView.cellDropWeek_bounds monthIndex year weeks dp,
    fun j => MonthView.zoneDropWeekAbove_bounds monthIndex year weeks j⟩
  · simp [MonthView.cellDropWeek, hlen, hne]
  · simp [MonthView.zoneDropWeekAbove, hne]

/-- C7 witness: dropping above the middle item of weeks [10, 20, 30] lands
on the midpoint week 15. -/
theorem dropWeek_middle_above_formula_witness :
    MonthView.cellDropWeek 5 2025 [10, 20, 30] (some ⟨1, true⟩) = 15 := by
  have h := dropWeek_middle_above_formula 5 2025 [10, 20, 30] 1 (by norm_num) (by decide)
  rw [h.1]
  decide

/-- C8: the inverse lookups are total, and when no week of [1,52] maps to
`monthIndex` both return the `getWeekForMonth` fallback instead of
failing. -/
theorem firstLastWeekForMonth_fallback (monthIndex year : Int)
    (hnone : ∀ w : Nat, 1 ≤ w → w ≤ 52 →
      DateHelpers.getMonthFromWeek (w : Int) year ≠ monthIndex) :
    DateHelpers.getFirstWeekForMonth monthIndex year
        = DateHelpers.getWeekForMonth monthIndex year ∧
    DateHelpers.getLastWeekForMonth monthIndex year
        = DateHelpers.getWeekForMonth monthIndex year := by
  constructor
  · exact DateHelpers.firstWeekScan_none monthIndex year 52 1
      (fun w hw1 hw2 => hnone w hw1 (by omega))
  · exact DateHelpers.lastWeekScan_none monthIndex year 52
      (fun w hw1 hw2 => hnone w hw1 hw2)

/-- C8 witness: month index 99 is mapped to by no week, so both lookups
fall back for school year 2025. -/
theorem firstLastWeekForMonth_fallback_witness :
    DateHelpers.getFirstWeekForMonth 99 2025 = DateHelpers.getWeekForMonth 99 2025 ∧
    DateHelpers.getLastWeekForMonth 99 2025 = DateHelpers.getWeekForMonth 99 2025 :=
  firstLastWeekForMonth_fallback 99 2025 (by
    have h : ∀ w : Nat, w < 53 →
        (1 ≤ w → DateHelpers.getMonthFromWeek (w : Int) 2025 ≠ 99) := by decide
    exact fun w hw1 hw2 => h w (by omega) hw1)

/-- C9: for January, February and March (month indices 0–2) of any school
year the representative week is 1 (the 15th lies before the school-year
start, and the clamp forces week 1), and week 1 always maps to April. -/
theorem getWeekForMonth_winter_months_week1 (year m : Int)
    (h0 : 0 ≤ m) (h2 : m ≤ 2) :
    DateHelpers.getWeekForMonth m year = 1 ∧
    DateHelpers.getMonthFromWeek 1 year = 3 := by
  have hkey : ∀ r : Nat, r < 400 →
      DateHelpers.getWeekForMonth 0 (r : Int) = 1 ∧
      DateHelpers.getWeekForMonth 1 (r : Int) = 1 ∧
      DateHelpers.getWeekForMonth 2 (r : Int) = 1 ∧
      DateHelpers.getMonthFromWeek 1 (r : Int) = 3 := by decide
  have hper1 : ∀ mi : Int,
      DateHelpers.getWeekForMonth mi year = DateHelpers.getWeekForMonth mi (year % 400) :=
    fun mi => periodic400_eval (fun z => DateHelpers.getWeekForMonth mi z)
      (fun z => DateHelpers.getWeekForMonth_add_400 mi z) year
  have hper2 : DateHelpers.getMonthFromWeek 1 year
      = DateHelpers.getMonthFromWeek 1 (year % 400) :=
    periodic400_eval (fun z => DateHelpers.getMonthFromWeek 1 z)
      (fun z => DateHelpers.getMonthFromWeek_add_400 1 z) year
  have hr0 : 0 ≤ year % 400 := Int.emod_nonneg year (by norm_num)
  have hr1 : year % 400 < 400 := Int.emod_lt_of_pos year (by norm_num)
  have hcast : ((year % 400).toNat : Int) = year % 400 := Int.toNat_of_nonneg hr0
  have hk := hkey (year % 400).toNat (by omega)
  rw [hcast] at hk
  interval_cases m
  · exact ⟨(hper1 0).trans hk.1, hper2.trans hk.2.2.2⟩
  · exact ⟨(hper1 1).trans hk.2.1, hper2.trans hk.2.2.2⟩
  · exact ⟨(hper1 2).trans hk.2.2.1, hper2.trans hk.2.2.2⟩

/-- C9 witness: January (month 0) of school year 2025. -/
theorem getWeekForMonth_winter_months_week1_witness :
    DateHelpers.getWeekForMonth 0 2025 = 1 ∧ DateHelpers.getMonthFromWeek 1 2025 = 3 :=
  getWeekForMonth_winter_months_week1 2025 0 (by norm_num) (by norm_num)

/-- C10: the calendar-week `getMonthFromWeek` is total over all integer
inputs and its result always lies in [0, 11]. -/
theorem getMonthFromWeek_total_range (w y : Int) :
    0 ≤ DateHelpers.getMonthFromWeek w y ∧ DateHelpers.getMonthFromWeek w y ≤ 11 := by
  rw [DateHelpers.getMonthFromWeek_eq]
  unfold JSDate.getMonth
  constructor
  · exact Int.natCast_nonneg _
  · exact_mod_cast JSDate.civilOfDays_month_le _
